import Mathlib

/-!
Verification of the clonk-x-factory pipeline against its specification.

The development shallowly embeds the pipeline code: the artifact merger
(mergeWithTemplate in services/claude.ts), the badge injector
(injectVibedBadge in services/badge.ts), the readiness-wait loop
(waitForDeployment in services/vercel.ts), the agentic generation loop
(runClaudeQuery in services/claude.ts), the deployment orchestrator
(processMentionToApp in pipeline.ts) and the polling dedup guard
(pollMentions in index.ts).  JS strings are modelled as Lean strings,
with first-occurrence replacement and substring search implemented on
the underlying character lists.
-/

namespace Clonk

/-- A (path, content) pair, the Artifact of the data model. -/
structure FileEntry where
  path : String
  content : String
deriving DecidableEq, Repr

/-! ## Character-list string primitives

JS String.prototype.replace with a string pattern replaces the first
occurrence only, and String.prototype.includes is substring search.
Both are modelled on the character list underlying a String. -/

/-- Bool test that the first list is a prefix of the second. -/
def leadsWith : List Char → List Char → Bool
  | [], _ => true
  | _ :: _, [] => false
  | a :: as, b :: bs => a == b && leadsWith as bs

/-- Bool test that pat occurs as a contiguous sublist of l. -/
def hasSubstr (pat : List Char) : List Char → Bool
  | [] => pat.isEmpty
  | c :: cs => leadsWith pat (c :: cs) || hasSubstr pat cs

/-- Replace the first occurrence of pat in l by rep (JS replace with a
string pattern).  If pat does not occur, l is returned unchanged. -/
def listReplaceFirst (pat rep : List Char) : List Char → List Char
  | [] => []
  | c :: cs =>
    if leadsWith pat (c :: cs) then rep ++ (c :: cs).drop pat.length
    else c :: listReplaceFirst pat rep cs

/-- String wrapper for substring search (JS includes). -/
def hasSubstrS (s pat : String) : Bool :=
  hasSubstr pat.data s.data

/-- String wrapper for first-occurrence replacement (JS replace). -/
def replaceFirst (s pat rep : String) : String :=
  ⟨listReplaceFirst pat.data rep.data s.data⟩

theorem leadsWith_iff (pat : List Char) :
    ∀ l : List Char, leadsWith pat l = true ↔ ∃ t, l = pat ++ t := by
  induction pat with
  | nil =>
    intro l
    simp [leadsWith]
  | cons a as ih =>
    intro l
    cases l with
    | nil =>
      simp [leadsWith]
    | cons b bs =>
      simp only [leadsWith, Bool.and_eq_true, beq_iff_eq]
      constructor
      · rintro ⟨rfl, h⟩
        obtain ⟨t, rfl⟩ := (ih bs).mp h
        exact ⟨t, rfl⟩
      · rintro ⟨t, ht⟩
        cases ht
        exact ⟨rfl, (ih (as ++ t)).mpr ⟨t, rfl⟩⟩

theorem listReplaceFirst_spec (pat rep : List Char) (hpat : pat ≠ []) :
    ∀ l : List Char, hasSubstr pat l = true →
      ∃ a b, l = a ++ pat ++ b ∧ listReplaceFirst pat rep l = a ++ rep ++ b := by
  intro l
  induction l with
  | nil =>
    intro h
    simp [hasSubstr, List.isEmpty_iff] at h
    exact absurd h hpat
  | cons c cs ih =>
    intro h
    simp only [hasSubstr, Bool.or_eq_true] at h
    by_cases hp : leadsWith pat (c :: cs) = true
    · obtain ⟨t, ht⟩ := (leadsWith_iff pat (c :: cs)).mp hp
      refine ⟨[], t, by simpa using ht, ?_⟩
      simp only [listReplaceFirst, hp, if_true]
      rw [ht, List.drop_left]
      simp
    · have h2 : hasSubstr pat cs = true := by
        rcases h with h | h
        · exact absurd h hp
        · exact h
      obtain ⟨a, b, hab, hrep⟩ := ih h2
      refine ⟨c :: a, b, by simp [hab], ?_⟩
      simp only [listReplaceFirst, hp, if_false, Bool.false_eq_true]
      simp [hrep]

theorem hasSubstr_of_parts (pat a b : List Char) :
    hasSubstr pat (a ++ (pat ++ b)) = true := by
  induction a with
  | nil =>
    cases pat with
    | nil => cases b <;> simp [hasSubstr, leadsWith]
    | cons p ps =>
      simp only [List.nil_append, List.cons_append, hasSubstr, Bool.or_eq_true]
      left
      exact (leadsWith_iff (p :: ps) _).mpr ⟨b, by simp⟩
  | cons c cs ih =>
    simp only [List.cons_append, hasSubstr, Bool.or_eq_true]
    right
    exact ih

/-! ## Artifact Merger (mergeWithTemplate in services/claude.ts)

mergeWithTemplate processes the template files (slot substitution in
index.html.template, dependency merge into package.json), appends the
Convex .env.local when applicable, and then appends those creative
files whose path does not collide with a processed template path.  The
JSON.parse / dependency-spread / JSON.stringify step on package.json is
abstracted as the parameter pkgMerge; it only rewrites the content of
the package.json entry and cannot affect any path. -/

/-- Metadata plus creative files returned by the generation step
(RawGeneratedApp in services/claude.ts).  The absent-or-empty
extraDependencies record maps to the empty list. -/
structure RawGeneratedApp where
  appName : String
  description : String
  title : String
  fonts : List String
  extraDependencies : List (String × String)
  files : List FileEntry
deriving DecidableEq, Repr

/-- Merged deployable app (GeneratedApp in services/claude.ts). -/
structure GeneratedApp where
  appName : String
  description : String
  files : List FileEntry
deriving DecidableEq, Repr

/-- The closed template enumeration (TemplateName). -/
inductive TemplateName where
  | reactVite
  | convexReactVite
  | threejsReactVite
deriving DecidableEq, Repr

/-- The TITLE placeholder of index.html.template. -/
def titlePlaceholder : String := "\x7b\x7bTITLE\x7d\x7d"

/-- The FONTS placeholder of index.html.template. -/
def fontsPlaceholder : String := "\x7b\x7bFONTS\x7d\x7d"

/-- Font stylesheet link lines built from the fonts metadata. -/
def fontLinks (fonts : List String) : String :=
  String.intercalate "\n"
    (fonts.map fun url => "    <link rel=\"stylesheet\" href=\"" ++ url ++ "\">")

/-- Per-template-file processing pass of mergeWithTemplate: the
index.html.template slots are substituted (first occurrence, as JS
replace does), package.json receives the extra dependencies when any
were requested, and every other template file passes unchanged. -/
def processTemplateFile (pkgMerge : String → List (String × String) → String)
    (raw : RawGeneratedApp) (tmpl : FileEntry) : FileEntry :=
  if tmpl.path = "index.html.template" then
    { path := "index.html",
      content :=
        replaceFirst
          (replaceFirst tmpl.content titlePlaceholder
            (if raw.title = "" then raw.appName else raw.title))
          fontsPlaceholder (fontLinks raw.fonts) }
  else if tmpl.path = "package.json" ∧ raw.extraDependencies ≠ [] then
    { path := "package.json", content := pkgMerge tmpl.content raw.extraDependencies }
  else tmpl

/-- The processed template file list, including the Convex .env.local
entry that is appended for convex-react-vite when a deployment URL is
given (a JS empty string is falsy and appends nothing). -/
def mergeBase (pkgMerge : String → List (String × String) → String)
    (raw : RawGeneratedApp) (template : TemplateName) (convexUrl : Option String)
    (templateFiles : List FileEntry) : List FileEntry :=
  templateFiles.map (processTemplateFile pkgMerge raw) ++
    (match template, convexUrl with
      | .convexReactVite, some url =>
        if url = "" then []
        else [{ path := ".env.local", content := "VITE_CONVEX_URL=" ++ url ++ "\n" }]
      | _, _ => [])

/-- mergeWithTemplate: the processed template files followed by the
creative files whose path is not among the processed template paths.
A creative file whose path collides with any template path is dropped. -/
def mergeWithTemplate (pkgMerge : String → List (String × String) → String)
    (raw : RawGeneratedApp) (template : TemplateName) (convexUrl : Option String)
    (templateFiles : List FileEntry) : GeneratedApp :=
  { appName := raw.appName,
    description := raw.description,
    files :=
      mergeBase pkgMerge raw template convexUrl templateFiles ++
        raw.files.filter fun f =>
          !(((mergeBase pkgMerge raw template convexUrl templateFiles).map
              FileEntry.path).contains f.path) }

/-! ## Badge injector (injectVibedBadge in services/badge.ts)

injectVibedBadge finds the first entry whose path is index.html and
mutates its content in place: the badge script is spliced in before the
first closing body tag if one occurs, appended at the end otherwise.
The badge script itself is built once at startup from the logo file; it
is carried here as the parameter badgeScript. -/

/-- Content transformation applied to the index.html entry. -/
def injectContent (badgeScript content : String) : String :=
  if hasSubstrS content ("</body>") then
    replaceFirst content ("</body>") (badgeScript ++ "\n</body>")
  else content ++ badgeScript

/-- injectVibedBadge: update the first index.html entry, leave every
other entry unchanged; a file set without index.html is unchanged. -/
def injectVibedBadge (badgeScript : String) : List FileEntry → List FileEntry
  | [] => []
  | f :: rest =>
    if f.path = "index.html" then
      { f with content := injectContent badgeScript f.content } :: rest
    else f :: injectVibedBadge badgeScript rest

/-! ## Readiness wait (waitForDeployment in services/vercel.ts)

waitForDeployment polls the deployment state while the elapsed time is
below the timeout: READY returns normally, ERROR or CANCELED throws, any
other state sleeps for the fixed interval and polls again; leaving the
loop throws the timeout error.  The abstract run is driven by the
sequence of states the polls would observe; elapsed time advances by
intervalMs per iteration.  The fuel argument only bounds recursion and
is chosen large enough that the elapsed-time check always fires first
(waitLoop_fuel below). -/

/-- States that make the poll loop throw (readyState ERROR or CANCELED). -/
def isStop (s : String) : Bool := s == "ERROR" || s == "CANCELED"

/-- States that end the poll loop one way or the other. -/
def isTerminal (s : String) : Bool := s == "READY" || isStop s

/-- Outcome of waitForDeployment: normal return, thrown state error, or
the timeout error. -/
inductive WaitOutcome where
  | ready
  | failed (state : String)
  | timedOut
deriving DecidableEq, Repr

/-- The polling loop of waitForDeployment. -/
def waitLoop (states : Nat → String) (timeoutMs intervalMs : Nat) :
    Nat → Nat → Nat → WaitOutcome
  | _, _, 0 => .timedOut
  | i, elapsed, fuel + 1 =>
    if elapsed < timeoutMs then
      if states i = "READY" then .ready
      else if isStop (states i) then .failed (states i)
      else waitLoop states timeoutMs intervalMs (i + 1) (elapsed + intervalMs) fuel
    else .timedOut

/-- waitForDeployment with its defaults timeoutMs = 300000 and
intervalMs = 10000 supplied at call sites. -/
def waitForDeployment (states : Nat → String) (timeoutMs intervalMs : Nat) : WaitOutcome :=
  waitLoop states timeoutMs intervalMs 0 0 (timeoutMs / intervalMs + 1)

/-! ## Generation loop (runClaudeQuery in services/claude.ts)

runClaudeQuery iterates over the SDK message stream keeping a turn
counter, a consecutive-error counter (threshold 5) and a
consecutive-refusal counter (threshold 3).  An assistant message is a
turn: it resets the error counter, and it is a refusal exactly when it
carries no tool-use block and its joined text matches the refusal
pattern set; the pattern set (a fixed list of regexes in the source) is
carried as the predicate matchesRefusal.  A result message either
stores the structured output (subtype success) or bumps the error
counter.  After the stream ends, a missing structured output is an
error.  The creative files are read from the build directory on disk,
carried here as the parameter diskFiles. -/

/-- Structured-output metadata of a successful generation. -/
structure RawMeta where
  appName : String
  description : String
  title : String
  fonts : List String
deriving DecidableEq, Repr

/-- The SDK messages the loop distinguishes: assistant turns (tool-use
flag and joined text), result messages of subtype success (with or
without structured output), result messages of error subtypes (with an
optional joined error string), and anything else. -/
inductive SdkMessage where
  | assistant (hasToolUse : Bool) (text : String)
  | resultSuccess (structuredOutput : Option RawMeta)
  | resultError (errs : Option String)
  | other
deriving DecidableEq, Repr

/-- Loop state of runClaudeQuery. -/
structure RCQState where
  turnCount : Nat
  consecutiveErrors : Nat
  consecutiveRefusals : Nat
  result : Option (Option RawMeta)
  lastError : Option String
deriving DecidableEq, Repr

/-- Initial loop state. -/
def initRCQ : RCQState := ⟨0, 0, 0, none, none⟩

/-- Errors runClaudeQuery can throw. -/
inductive QueryError where
  | contentRefused (count : Nat)
  | providerError (lastError : String)
  | noOutput (lastError : Option String)
  | timedOut
deriving DecidableEq, Repr

/-- The thrown Error message for each QueryError. -/
def queryErrorMessage : QueryError → String
  | .contentRefused n =>
    "Content refused by Claude (" ++ toString n ++
      " consecutive refusals). The request likely violates content policy."
  | .providerError le => "Aborting: 5 consecutive errors from Claude API: " ++ le
  | .noOutput le =>
    "Failed to get structured output from Claude: " ++ le.getD ("unknown error")
  | .timedOut => "Claude query timed out after 300s"

/-- One message-processing step of the runClaudeQuery loop. -/
def stepMsg (matchesRefusal : String → Bool) (st : RCQState) :
    SdkMessage → Except QueryError RCQState
  | .assistant hasToolUse text =>
    if !hasToolUse && matchesRefusal text then
      if 3 ≤ st.consecutiveRefusals + 1 then
        .error (.contentRefused (st.consecutiveRefusals + 1))
      else
        .ok { st with turnCount := st.turnCount + 1, consecutiveErrors := 0,
                      consecutiveRefusals := st.consecutiveRefusals + 1 }
    else
      .ok { st with turnCount := st.turnCount + 1, consecutiveErrors := 0,
                    consecutiveRefusals := 0 }
  | .resultSuccess structuredOutput => .ok { st with result := some structuredOutput }
  | .resultError errs =>
    if 5 ≤ st.consecutiveErrors + 1 then
      .error (.providerError (errs.getD ("unknown")))
    else
      .ok { st with consecutiveErrors := st.consecutiveErrors + 1,
                    lastError := some (errs.getD ("unknown")) }
  | .other => .ok st

/-- Fold of stepMsg over the message stream, stopping at the first
thrown error. -/
def runMsgs (matchesRefusal : String → Bool) :
    RCQState → List SdkMessage → Except QueryError RCQState
  | st, [] => .ok st
  | st, m :: rest =>
    match stepMsg matchesRefusal st m with
    | .error e => .error e
    | .ok st1 => runMsgs matchesRefusal st1 rest

/-- runClaudeQuery: run the loop, then require a structured output and
pair it with the creative files read from disk. -/
def runClaudeQueryModel (matchesRefusal : String → Bool) (msgs : List SdkMessage)
    (diskFiles : List FileEntry) : Except QueryError (RawMeta × List FileEntry) :=
  match runMsgs matchesRefusal initRCQ msgs with
  | .error e => .error e
  | .ok st =>
    match st.result with
    | some (some meta) => .ok (meta, diskFiles)
    | _ => .error (.noOutput st.lastError)

/-- The hard timeout constant of runClaudeQuery (5 minutes in ms). -/
def HARD_TIMEOUT_MS : Nat := 5 * 60 * 1000

/-- Timed run of the loop.  The source arms an AbortController through
setTimeout, but never hands its signal to the SDK query call, so no
message processing is ever cut off by the deadline: each message is
processed exactly as in the untimed loop whatever its arrival time.
The only effect of the expired controller is in the catch block, which
relabels an error thrown after the deadline as the timeout error. -/
def runMsgsTimed (matchesRefusal : String → Bool) :
    RCQState → List (Nat × SdkMessage) → Except QueryError RCQState
  | st, [] => .ok st
  | st, (t, m) :: rest =>
    match stepMsg matchesRefusal st m with
    | .error e => .error (if HARD_TIMEOUT_MS ≤ t then .timedOut else e)
    | .ok st1 => runMsgsTimed matchesRefusal st1 rest

/-- runClaudeQuery on a timed message stream.  The final
structured-output check sits outside the try block in the source and is
never relabelled. -/
def runClaudeQueryTimed (matchesRefusal : String → Bool) (msgs : List (Nat × SdkMessage))
    (diskFiles : List FileEntry) : Except QueryError (RawMeta × List FileEntry) :=
  match runMsgsTimed matchesRefusal initRCQ msgs with
  | .error e => .error e
  | .ok st =>
    match st.result with
    | some (some meta) => .ok (meta, diskFiles)
    | _ => .error (.noOutput st.lastError)

/-! ## Deployment orchestrator (processMentionToApp in pipeline.ts)

processMentionToApp runs inside one try block: the Convex phase (with
its inner quota-fallback catch), the fallback generation phases, badge
injection, the Vercel deploy, GitHub repo creation in parallel with the
readiness wait, the non-fatal screenshot and gallery steps, and the
success reply.  The outer catch sends a best-effort apology reply and
rethrows.  Each external call is represented by its outcome in a
PipelineEnv record; the run returns the ordered stage events together
with the final result. -/

/-- Outcome of one external call: a value or a thrown error message. -/
inductive StageResult (α : Type) where
  | ok (val : α)
  | err (msg : String)
deriving DecidableEq, Repr

/-- The backend variants (only Convex exists). -/
inductive Backend where
  | convex
deriving DecidableEq, Repr

/-- The template hints (only threejs exists). -/
inductive TemplateKind where
  | threejs
deriving DecidableEq, Repr

/-- The control-relevant fields of PipelineInput; idea text, user data
and media only flow into the prompts of the external generation calls,
whose outcomes the PipelineEnv already carries. -/
structure PipelineInput where
  backend : Option Backend
  template : Option TemplateKind
deriving DecidableEq, Repr

/-- Outcomes of the external calls of one pipeline run. -/
structure PipelineEnv where
  createConvexProject : StageResult Unit
  generateConvexApp : StageResult GeneratedApp
  configureConvexAuthKeys : StageResult Unit
  deployConvexBackend : StageResult Unit
  generateThreeJsApp : StageResult GeneratedApp
  generateApp : StageResult GeneratedApp
  deployToVercel : StageResult (String × String)
  createGitHubRepo : StageResult String
  waitForDeployment : StageResult Unit
  takeScreenshot : StageResult Unit
  publishToClonkSite : StageResult (Option String)
  reply : StageResult Unit

/-- Stage events in execution order.  The Vercel deploy event records
the file set handed to the hosting provider. -/
inductive StageEvent where
  | createConvexProject
  | generateConvex
  | configureAuthKeys
  | deployBackend
  | generateThreeJs
  | generateStatic
  | deployVercel (files : List FileEntry)
  | createGithubRepo
  | waitDeploy
  | screenshot
  | clonkPublish
  | replySuccess (text : String)
  | replyApology
deriving DecidableEq, Repr

/-- Events of the generation calls. -/
def isGenerationEvent : StageEvent → Bool
  | .generateConvex => true
  | .generateThreeJs => true
  | .generateStatic => true
  | _ => false

/-- Events of a sent success reply. -/
def isReplySuccessEvent : StageEvent → Bool
  | .replySuccess _ => true
  | _ => false

/-- The quota test of the inner Convex catch: the error message contains
ProjectQuotaReached or project quota. -/
def isQuotaMsg (m : String) : Bool :=
  hasSubstrS m ("ProjectQuotaReached") || hasSubstrS m ("project quota")

/-- The generation fallback phases after the Convex phase: the Three.js
generation runs when no app was generated and the threejs template was
requested; otherwise the static generation runs when additionally no
backend is (still) requested.  The final arm mirrors the non-null
assertion on generatedApp in the source. -/
def afterBackendPhase (env : PipelineEnv) (input : PipelineInput)
    (genApp : Option GeneratedApp) (backend : Option Backend) :
    List StageEvent × Except String (GeneratedApp × Option Backend) :=
  match genApp with
  | some app => ([], .ok (app, backend))
  | none =>
    if input.template = some .threejs then
      match env.generateThreeJsApp with
      | .err m => ([.generateThreeJs], .error m)
      | .ok app => ([.generateThreeJs], .ok (app, backend))
    else if backend = none then
      match env.generateApp with
      | .err m => ([.generateStatic], .error m)
      | .ok app => ([.generateStatic], .ok (app, backend))
    else ([], .error ("generatedApp is undefined"))

/-- The Convex phase and generation phases of processMentionToApp.  A
quota-matching error in the inner try drops the backend (the source
mutates input.backend to undefined) and continues; any other error is
rethrown.  When the quota error strikes after the Convex generation
succeeded, the generated app is kept. -/
def genPhase (env : PipelineEnv) (input : PipelineInput) :
    List StageEvent × Except String (GeneratedApp × Option Backend) :=
  if input.backend = some .convex then
    match env.createConvexProject with
    | .err m =>
      if isQuotaMsg m then
        (.createConvexProject :: (afterBackendPhase env input none none).1,
         (afterBackendPhase env input none none).2)
      else ([.createConvexProject], .error m)
    | .ok _ =>
      match env.generateConvexApp with
      | .err m =>
        if isQuotaMsg m then
          (.createConvexProject :: .generateConvex ::
              (afterBackendPhase env input none none).1,
           (afterBackendPhase env input none none).2)
        else ([.createConvexProject, .generateConvex], .error m)
      | .ok app =>
        match env.configureConvexAuthKeys with
        | .err m =>
          if isQuotaMsg m then
            (.createConvexProject :: .generateConvex :: .configureAuthKeys ::
                (afterBackendPhase env input (some app) none).1,
             (afterBackendPhase env input (some app) none).2)
          else ([.createConvexProject, .generateConvex, .configureAuthKeys], .error m)
        | .ok _ =>
          match env.deployConvexBackend with
          | .err m =>
            if isQuotaMsg m then
              (.createConvexProject :: .generateConvex :: .configureAuthKeys ::
                  .deployBackend :: (afterBackendPhase env input (some app) none).1,
               (afterBackendPhase env input (some app) none).2)
            else
              ([.createConvexProject, .generateConvex, .configureAuthKeys,
                .deployBackend], .error m)
          | .ok _ =>
            ([.createConvexProject, .generateConvex, .configureAuthKeys,
              .deployBackend], .ok (app, some .convex))
  else
    afterBackendPhase env input none input.backend

/-- Gallery publish is wrapped in its own try: an error yields no link. -/
def clonkOf : StageResult (Option String) → Option String
  | .err _ => none
  | .ok u => u

/-- The success reply text of processMentionToApp. -/
def mkReplyText (vercelUrl : String) (backend : Option Backend)
    (clonk : Option String) (githubUrl : String) : String :=
  (if backend = some .convex then
    "✅ App live: " ++ vercelUrl ++ "\n⚡ Powered by Convex (real-time backend)"
   else "✅ App live: " ++ vercelUrl) ++
    (match clonk with
      | some u => "\n🌐 " ++ u
      | none => "") ++
    "\n📝 Contribute: " ++ githubUrl

/-- Deployment phases of processMentionToApp: badge injection feeds the
deployed file set, the Vercel deploy is fatal on error, the GitHub repo
creation and the readiness wait run together and either error is fatal,
the screenshot and gallery steps swallow their errors, and finally the
success reply is sent. -/
def deployPhase (badgeScript : String) (env : PipelineEnv) (backend : Option Backend)
    (app : GeneratedApp) : List StageEvent × Except String Unit :=
  match env.deployToVercel with
  | .err m => ([.deployVercel (injectVibedBadge badgeScript app.files)], .error m)
  | .ok (vercelUrl, _deploymentId) =>
    match env.createGitHubRepo with
    | .err m =>
      ([.deployVercel (injectVibedBadge badgeScript app.files), .createGithubRepo,
        .waitDeploy], .error m)
    | .ok githubUrl =>
      match env.waitForDeployment with
      | .err m =>
        ([.deployVercel (injectVibedBadge badgeScript app.files), .createGithubRepo,
          .waitDeploy], .error m)
      | .ok _ =>
        match env.reply with
        | .err m =>
          ([.deployVercel (injectVibedBadge badgeScript app.files), .createGithubRepo,
            .waitDeploy, .screenshot, .clonkPublish], .error m)
        | .ok _ =>
          ([.deployVercel (injectVibedBadge badgeScript app.files), .createGithubRepo,
            .waitDeploy, .screenshot, .clonkPublish,
            .replySuccess
              (mkReplyText vercelUrl backend (clonkOf env.publishToClonkSite)
                githubUrl)], .ok ())

/-- processMentionToApp: generation phases, then deployment phases; any
error reaches the outer catch, which sends the apology reply
(best-effort) and rethrows the error. -/
def runPipeline (badgeScript : String) (env : PipelineEnv) (input : PipelineInput) :
    List StageEvent × Except String Unit :=
  match genPhase env input with
  | (ev, .error m) => (ev ++ [.replyApology], .error m)
  | (ev, .ok (app, backend)) =>
    match deployPhase badgeScript env backend app with
    | (ev2, .error m) => (ev ++ ev2 ++ [.replyApology], .error m)
    | (ev2, .ok _) => (ev ++ ev2, .ok ())

/-- GitHub source publish (createGitHubRepo in services/github.ts): the
repository-creation request is unguarded, so its error propagates; each
file upload sits in its own try whose catch only logs, so upload errors
accumulate as diagnostics and the repository URL is returned anyway.
An upload is a pair of the file path and an optional error. -/
def uploadLoop : List (String × Option String) → List String
  | [] => []
  | (_, none) :: rest => uploadLoop rest
  | (p, some _) :: rest => p :: uploadLoop rest

/-- createGitHubRepo as a function of the repo-creation outcome and the
per-file upload outcomes: the returned URL never depends on upload
errors, which are only logged. -/
def createGitHubRepoModel (repoCreate : StageResult String)
    (uploads : List (String × Option String)) : StageResult String × List String :=
  match repoCreate with
  | .err m => (.err m, [])
  | .ok url => (.ok url, uploadLoop uploads)

/-- Generation as the pipeline sees it: runClaudeQuery followed by the
merge step on success, the thrown error message on failure. -/
def generationStage (merge : RawMeta × List FileEntry → GeneratedApp)
    (q : Except QueryError (RawMeta × List FileEntry)) : StageResult GeneratedApp :=
  match q with
  | .error e => .err (queryErrorMessage e)
  | .ok r => .ok (merge r)

/-! ## Dedup guard (pollMentions in index.ts, pollXMentions in channels)

The poll loop guards each message id with a shared in-memory set: it
skips the message when the id is present, otherwise it continues with
synchronous filtering, awaits the AI classification, and only then adds
the id and launches the pipeline, whose finally handler removes the id.
JS runs each synchronous block atomically, so a delivery is modelled as
three atomic steps: the membership check (up to the awaited classify
call), the insert-and-launch block after the await, and the terminal
finally block.  Two concurrent deliveries of the same id interleave
these steps in any order. -/

/-- Atomic steps of one delivery of a given message id. -/
inductive TaskPhase where
  | atCheck
  | atInsert
  | running
  | done
  | skipped
deriving DecidableEq, Repr

/-- Shared state for two concurrent deliveries of the same id:
whether the id is in the processing set, each delivery's next step, and
how many pipelines were launched. -/
structure DedupState where
  keyPresent : Bool
  pc1 : TaskPhase
  pc2 : TaskPhase
  started : Nat
deriving DecidableEq, Repr

/-- Advance one delivery by one atomic step.  The pipeline outcome flag
does not influence the terminal step because the finally handler
removes the id on success and failure alike. -/
def advance (_outcome : Bool) (keyPresent : Bool) (started : Nat) :
    TaskPhase → TaskPhase × Bool × Nat
  | .atCheck =>
    if keyPresent then (.skipped, keyPresent, started)
    else (.atInsert, keyPresent, started)
  | .atInsert => (.running, true, started + 1)
  | .running => (.done, false, started)
  | .done => (.done, keyPresent, started)
  | .skipped => (.skipped, keyPresent, started)

/-- One scheduler step: who = false advances the first delivery, who =
true the second. -/
def schedStep (o1 o2 : Bool) (st : DedupState) (who : Bool) : DedupState :=
  if who then
    match advance o2 st.keyPresent st.started st.pc2 with
    | (pc, k, s) => { st with pc2 := pc, keyPresent := k, started := s }
  else
    match advance o1 st.keyPresent st.started st.pc1 with
    | (pc, k, s) => { st with pc1 := pc, keyPresent := k, started := s }

/-- The initial state: id absent, both deliveries before their check. -/
def initDedup : DedupState := ⟨false, .atCheck, .atCheck, 0⟩

/-- Run a schedule of interleaved steps of the two deliveries. -/
def runSched (o1 o2 : Bool) (sched : List Bool) : DedupState :=
  sched.foldl (schedStep o1 o2) initDedup

/-! ## Claim C1: collision handling of the merge -/

/-- Concrete template file set for the C1 evaluation. -/
def c1TemplateFiles : List FileEntry :=
  [{ path := "src/styles.css", content := "skeleton css" }]

/-- Concrete generation output colliding on a template path. -/
def c1Raw : RawGeneratedApp :=
  { appName := "demo-app", description := "a demo", title := "Demo", fonts := [],
    extraDependencies := [],
    files := [{ path := "src/styles.css", content := "creative css" }] }

/-- Claim C1: the claim says that on a path collision the creative file
wins unless the path is protected.  Evaluating mergeWithTemplate on a
colliding creative file shows the opposite: the template version of the
path is kept and the creative file is dropped for every collision, even
though no protected-path set exists in the code — contradicting the
comment above the dedup loop, which says the creative version is kept
when a template file is rewritten. -/
theorem c1_collision_keeps_template :
    mergeWithTemplate (fun c _ => c) c1Raw .reactVite none c1TemplateFiles =
      { appName := "demo-app", description := "a demo",
        files := [{ path := "src/styles.css", content := "skeleton css" }] } := by
  rfl

/-! ## Claim C9: protected skeleton paths are retained -/

/-- Claim C9: for any path of the processed skeleton — in particular any
protected one, since protected paths are a subset of skeleton paths —
the merged output carries exactly the skeleton entries at that path: the
skeleton version is retained and no creative artifact at that path
appears in the output. -/
theorem c9_protected_retained (pkgMerge : String → List (String × String) → String)
    (raw : RawGeneratedApp) (template : TemplateName) (convexUrl : Option String)
    (templateFiles : List FileEntry) (p : String)
    (hp : p ∈ (mergeBase pkgMerge raw template convexUrl templateFiles).map FileEntry.path) :
    (mergeWithTemplate pkgMerge raw template convexUrl templateFiles).files.filter
        (fun f => f.path == p) =
      (mergeBase pkgMerge raw template convexUrl templateFiles).filter
        (fun f => f.path == p) := by
  show ((mergeBase pkgMerge raw template convexUrl templateFiles ++
      raw.files.filter fun f =>
        !(((mergeBase pkgMerge raw template convexUrl templateFiles).map
            FileEntry.path).contains f.path)).filter (fun f => f.path == p)) = _
  rw [List.filter_append]
  have hnil : (raw.files.filter fun f =>
      !(((mergeBase pkgMerge raw template convexUrl templateFiles).map
          FileEntry.path).contains f.path)).filter (fun f => f.path == p) = [] := by
    rw [List.filter_eq_nil_iff]
    intro f hf hbeq
    have hq := (List.mem_filter.mp hf).2
    have hne : f.path ∉ (mergeBase pkgMerge raw template convexUrl templateFiles).map
        FileEntry.path := by
      simpa using hq
    exact hne (by rwa [eq_of_beq hbeq])
  rw [hnil, List.append_nil]

/-- Witness for C9 at a concrete input. -/
theorem c9_protected_retained_witness :
    ("index.html" ∈ (mergeBase (fun c _ => c) c1Raw .reactVite none
        [{ path := "index.html.template", content := "<html></html>" }]).map
        FileEntry.path) ∧
      (mergeWithTemplate (fun c _ => c) c1Raw .reactVite none
          [{ path := "index.html.template", content := "<html></html>" }]).files.filter
          (fun f => f.path == "index.html") =
        (mergeBase (fun c _ => c) c1Raw .reactVite none
          [{ path := "index.html.template", content := "<html></html>" }]).filter
          (fun f => f.path == "index.html") :=
  ⟨by decide,
   c9_protected_retained (fun c _ => c) c1Raw .reactVite none
     [{ path := "index.html.template", content := "<html></html>" }] ("index.html")
     (by decide)⟩

/-! ## Claim C10: badge injection frame effect -/

/-- Helper: a file list without an index.html entry is unchanged. -/
theorem injectVibedBadge_no_index (badgeScript : String) :
    ∀ files : List FileEntry, (∀ g ∈ files, g.path ≠ "index.html") →
      injectVibedBadge badgeScript files = files := by
  intro files
  induction files with
  | nil => intro _; rfl
  | cons f rest ih =>
    intro h
    have hf : f.path ≠ "index.html" := h f (List.mem_cons_self f rest)
    simp only [injectVibedBadge, if_neg hf]
    rw [ih fun g hg => h g (List.mem_cons_of_mem f hg)]

/-- Helper: the first index.html entry gets the badge, everything else
is unchanged. -/
theorem injectVibedBadge_found (badgeScript : String) :
    ∀ (pre : List FileEntry) (f : FileEntry) (post : List FileEntry),
      f.path = "index.html" → (∀ g ∈ pre, g.path ≠ "index.html") →
      injectVibedBadge badgeScript (pre ++ f :: post) =
        pre ++ { f with content := injectContent badgeScript f.content } :: post := by
  intro pre
  induction pre with
  | nil =>
    intro f post hf _
    simp only [List.nil_append, injectVibedBadge, if_pos hf]
  | cons g pre ih =>
    intro f post hf h
    have hg : g.path ≠ "index.html" := h g (List.mem_cons_self g pre)
    simp only [List.cons_append, injectVibedBadge, if_neg hg]
    exact congrArg (g :: ·) (ih f post hf fun x hx => h x (List.mem_cons_of_mem g hx))

/-- Claim C10: the badge-injection step between merge and hosting deploy
is a frame effect: when an index.html entry exists (the first one, with
no earlier entry of that path), only its content changes — the badge
script is spliced in before the closing body tag when one occurs,
appended at the end otherwise — and every other entry is unchanged;
without an index.html entry the file set is unchanged. -/
theorem c10_badge_injection (badgeScript : String) (files pre post : List FileEntry)
    (f : FileEntry) :
    ((∀ g ∈ files, g.path ≠ "index.html") →
      injectVibedBadge badgeScript files = files) ∧
    (files = pre ++ f :: post → f.path = "index.html" →
      (∀ g ∈ pre, g.path ≠ "index.html") →
      injectVibedBadge badgeScript files =
        pre ++ { f with content := injectContent badgeScript f.content } :: post) ∧
    (hasSubstrS f.content ("</body>") = false →
      injectContent badgeScript f.content = f.content ++ badgeScript) ∧
    (hasSubstrS f.content ("</body>") = true →
      ∃ a b, f.content.data = a ++ ("</body>").data ++ b ∧
        (injectContent badgeScript f.content).data =
          a ++ (badgeScript ++ ("\n</body>")).data ++ b) := by
  refine ⟨injectVibedBadge_no_index badgeScript files, ?_, ?_, ?_⟩
  · intro hsplit hf hpre
    rw [hsplit]
    exact injectVibedBadge_found badgeScript pre f post hf hpre
  · intro h
    simp [injectContent, h]
  · intro h
    obtain ⟨a, b, hab, hrep⟩ :=
      listReplaceFirst_spec (("</body>" : String)).data
        (badgeScript ++ ("\n</body>")).data (by decide) f.content.data h
    refine ⟨a, b, hab, ?_⟩
    simpa [injectContent, h, replaceFirst] using hrep

/-- Witness for C10 at concrete inputs. -/
theorem c10_badge_injection_witness :
    injectVibedBadge ("<script>badge</script>")
        [{ path := "app.css", content := "css" }] =
      [{ path := "app.css", content := "css" }] ∧
    injectVibedBadge ("<script>badge</script>")
        [{ path := "app.css", content := "css" },
         { path := "index.html", content := "<body>hi</body>" }] =
      [{ path := "app.css", content := "css" },
       { path := "index.html",
         content := injectContent ("<script>badge</script>") ("<body>hi</body>") }] := by
  have h1 := c10_badge_injection ("<script>badge</script>")
    [{ path := "app.css", content := "css" }] [] []
    { path := "index.html", content := "<body>hi</body>" }
  have h2 := c10_badge_injection ("<script>badge</script>")
    [{ path := "app.css", content := "css" },
     { path := "index.html", content := "<body>hi</body>" }]
    [{ path := "app.css", content := "css" }] []
    { path := "index.html", content := "<body>hi</body>" }
  exact ⟨h1.1 (by decide), h2.2.1 rfl rfl (by decide)⟩

/-! ## Claim C7: characterization of the readiness wait -/

/-- Helper: a state that is neither READY nor a stop state is not
terminal. -/
theorem isTerminal_false_of (s : String) (hr : s ≠ "READY") (hs : isStop s = false) :
    isTerminal s = false := by
  simp [isTerminal, hs, beq_eq_false_iff_ne.mpr hr]

/-- Helper: the loop returns normally exactly when the first terminal
observation within the timeout is READY. -/
theorem waitLoop_ready_iff (states : Nat → String) (t v : Nat) :
    ∀ fuel i e, t ≤ e + fuel * v →
      (waitLoop states t v i e fuel = .ready ↔
        ∃ k, e + k * v < t ∧ states (i + k) = "READY" ∧
          ∀ j < k, isTerminal (states (i + j)) = false) := by
  intro fuel
  induction fuel with
  | zero =>
    intro i e hfuel
    simp only [waitLoop]
    constructor
    · intro h
      exact WaitOutcome.noConfusion h
    · rintro ⟨k, hk, -, -⟩
      have h1 : t ≤ e := by simpa using hfuel
      exact absurd hk (Nat.not_lt.mpr (le_trans h1 (Nat.le_add_right e (k * v))))
  | succ fuel ih =>
    intro i e hfuel
    by_cases he : e < t
    · by_cases hr : states i = "READY"
      · simp only [waitLoop, if_pos he, if_pos hr]
        constructor
        · intro _
          exact ⟨0, by simpa using he, by simpa using hr,
            fun j hj => absurd hj (Nat.not_lt_zero j)⟩
        · intro _
          trivial
      · by_cases hs : isStop (states i) = true
        · simp only [waitLoop, if_pos he, if_neg hr, hs, if_pos rfl]
          constructor
          · intro h
            exact WaitOutcome.noConfusion h
          · rintro ⟨k, hk, hkr, hmin⟩
            cases k with
            | zero => exact absurd (by simpa using hkr) hr
            | succ k =>
              have h0 := hmin 0 (Nat.succ_pos k)
              rw [Nat.add_zero] at h0
              simp [isTerminal, hs] at h0
        · have hs2 : isStop (states i) = false := by simpa using hs
          have hter := isTerminal_false_of (states i) hr hs2
          have hfuel2 : t ≤ (e + v) + fuel * v := by
            have harith : e + (fuel + 1) * v = (e + v) + fuel * v := by ring
            rw [← harith]
            exact hfuel
          simp only [waitLoop, if_pos he, if_neg hr, hs2, Bool.false_eq_true, if_false]
          rw [ih (i + 1) (e + v) hfuel2]
          constructor
          · rintro ⟨k, hk, hkr, hmin⟩
            refine ⟨k + 1, ?_, ?_, ?_⟩
            · have harith : e + (k + 1) * v = (e + v) + k * v := by ring
              rw [harith]
              exact hk
            · have hidx : i + (k + 1) = i + 1 + k := by omega
              rw [hidx]
              exact hkr
            · intro j hj
              cases j with
              | zero =>
                rw [Nat.add_zero]
                exact hter
              | succ j =>
                have hidx : i + (j + 1) = i + 1 + j := by omega
                rw [hidx]
                exact hmin j (Nat.lt_of_succ_lt_succ hj)
          · rintro ⟨k, hk, hkr, hmin⟩
            cases k with
            | zero => exact absurd (by simpa using hkr) hr
            | succ k =>
              refine ⟨k, ?_, ?_, ?_⟩
              · have harith : e + (k + 1) * v = (e + v) + k * v := by ring
                rw [← harith]
                exact hk
              · have hidx : i + 1 + k = i + (k + 1) := by omega
                rw [hidx]
                exact hkr
              · intro j hj
                have hidx : i + 1 + j = i + (j + 1) := by omega
                rw [hidx]
                exact hmin (j + 1) (Nat.succ_lt_succ hj)
    · simp only [waitLoop, if_neg he]
      constructor
      · intro h
        exact WaitOutcome.noConfusion h
      · rintro ⟨k, hk, -, -⟩
        have h1 : t ≤ e := Nat.le_of_not_lt he
        exact absurd hk (Nat.not_lt.mpr (le_trans h1 (Nat.le_add_right e (k * v))))

/-- Helper: the loop throws the state error exactly when the first
terminal observation within the timeout is a stop state. -/
theorem waitLoop_failed_iff (states : Nat → String) (t v : Nat) :
    ∀ fuel i e, t ≤ e + fuel * v →
      ((∃ m, waitLoop states t v i e fuel = .failed m) ↔
        ∃ k, e + k * v < t ∧ isStop (states (i + k)) = true ∧
          ∀ j < k, isTerminal (states (i + j)) = false) := by
  intro fuel
  induction fuel with
  | zero =>
    intro i e hfuel
    simp only [waitLoop]
    constructor
    · rintro ⟨m, hm⟩
      exact WaitOutcome.noConfusion hm
    · rintro ⟨k, hk, -, -⟩
      have h1 : t ≤ e := by simpa using hfuel
      exact absurd hk (Nat.not_lt.mpr (le_trans h1 (Nat.le_add_right e (k * v))))
  | succ fuel ih =>
    intro i e hfuel
    by_cases he : e < t
    · by_cases hr : states i = "READY"
      · simp only [waitLoop, if_pos he, if_pos hr]
        constructor
        · rintro ⟨m, hm⟩
          exact WaitOutcome.noConfusion hm
        · rintro ⟨k, hk, hks, hmin⟩
          cases k with
          | zero =>
            rw [Nat.add_zero] at hks
            simp [isStop, hr] at hks
          | succ k =>
            have h0 := hmin 0 (Nat.succ_pos k)
            rw [Nat.add_zero] at h0
            simp [isTerminal, hr] at h0
      · by_cases hs : isStop (states i) = true
        · simp only [waitLoop, if_pos he, if_neg hr, hs, if_pos rfl]
          constructor
          · intro _
            exact ⟨0, by simpa using he, by simpa using hs,
              fun j hj => absurd hj (Nat.not_lt_zero j)⟩
          · intro _
            exact ⟨states i, rfl⟩
        · have hs2 : isStop (states i) = false := by simpa using hs
          have hter := isTerminal_false_of (states i) hr hs2
          have hfuel2 : t ≤ (e + v) + fuel * v := by
            have harith : e + (fuel + 1) * v = (e + v) + fuel * v := by ring
            rw [← harith]
            exact hfuel
          simp only [waitLoop, if_pos he, if_neg hr, hs2, Bool.false_eq_true, if_false]
          rw [ih (i + 1) (e + v) hfuel2]
          constructor
          · rintro ⟨k, hk, hks, hmin⟩
            refine ⟨k + 1, ?_, ?_, ?_⟩
            · have harith : e + (k + 1) * v = (e + v) + k * v := by ring
              rw [harith]
              exact hk
            · have hidx : i + (k + 1) = i + 1 + k := by omega
              rw [hidx]
              exact hks
            · intro j hj
              cases j with
              | zero =>
                rw [Nat.add_zero]
                exact hter
              | succ j =>
                have hidx : i + (j + 1) = i + 1 + j := by omega
                rw [hidx]
                exact hmin j (Nat.lt_of_succ_lt_succ hj)
          · rintro ⟨k, hk, hks, hmin⟩
            cases k with
            | zero =>
              rw [Nat.add_zero] at hks
              exact absurd hks hs
            | succ k =>
              refine ⟨k, ?_, ?_, ?_⟩
              · have harith : e + (k + 1) * v = (e + v) + k * v := by ring
                rw [← harith]
                exact hk
              · have hidx : i + 1 + k = i + (k + 1) := by omega
                rw [hidx]
                exact hks
              · intro j hj
                have hidx : i + 1 + j = i + (j + 1) := by omega
                rw [hidx]
                exact hmin (j + 1) (Nat.succ_lt_succ hj)
    · simp only [waitLoop, if_neg he]
      constructor
      · rintro ⟨m, hm⟩
        exact WaitOutcome.noConfusion hm
      · rintro ⟨k, hk, -, -⟩
        have h1 : t ≤ e := Nat.le_of_not_lt he
        exact absurd hk (Nat.not_lt.mpr (le_trans h1 (Nat.le_add_right e (k * v))))

/-- Helper: the loop throws the timeout error exactly when no poll
within the timeout observes a terminal state. -/
theorem waitLoop_timedOut_iff (states : Nat → String) (t v : Nat) :
    ∀ fuel i e, t ≤ e + fuel * v →
      (waitLoop states t v i e fuel = .timedOut ↔
        ∀ k, e + k * v < t → isTerminal (states (i + k)) = false) := by
  intro fuel
  induction fuel with
  | zero =>
    intro i e hfuel
    simp only [waitLoop]
    constructor
    · intro _ k hk
      have h1 : t ≤ e := by simpa using hfuel
      exact absurd hk (Nat.not_lt.mpr (le_trans h1 (Nat.le_add_right e (k * v))))
    · intro _
      trivial
  | succ fuel ih =>
    intro i e hfuel
    by_cases he : e < t
    · by_cases hr : states i = "READY"
      · simp only [waitLoop, if_pos he, if_pos hr]
        constructor
        · intro h
          exact WaitOutcome.noConfusion h
        · intro h
          have h0 := h 0 (by simpa using he)
          rw [Nat.add_zero] at h0
          simp [isTerminal, hr] at h0
      · by_cases hs : isStop (states i) = true
        · simp only [waitLoop, if_pos he, if_neg hr, hs, if_pos rfl]
          constructor
          · intro h
            exact WaitOutcome.noConfusion h
          · intro h
            have h0 := h 0 (by simpa using he)
            rw [Nat.add_zero] at h0
            simp [isTerminal, hs] at h0
        · have hs2 : isStop (states i) = false := by simpa using hs
          have hter := isTerminal_false_of (states i) hr hs2
          have hfuel2 : t ≤ (e + v) + fuel * v := by
            have harith : e + (fuel + 1) * v = (e + v) + fuel * v := by ring
            rw [← harith]
            exact hfuel
          simp only [waitLoop, if_pos he, if_neg hr, hs2, Bool.false_eq_true, if_false]
          rw [ih (i + 1) (e + v) hfuel2]
          constructor
          · intro h k hk
            cases k with
            | zero =>
              rw [Nat.add_zero]
              exact hter
            | succ k =>
              have hidx : i + (k + 1) = i + 1 + k := by omega
              rw [hidx]
              refine h k ?_
              have harith : e + (k + 1) * v = (e + v) + k * v := by ring
              rw [harith] at hk
              exact hk
          · intro h k hk
            have hidx : i + 1 + k = i + (k + 1) := by omega
            rw [hidx]
            refine h (k + 1) ?_
            have harith : e + (k + 1) * v = (e + v) + k * v := by ring
            rw [harith]
            exact hk
    · simp only [waitLoop, if_neg he]
      have h1 : t ≤ e := Nat.le_of_not_lt he
      constructor
      · intro _ k hk
        exact absurd hk (Nat.not_lt.mpr (le_trans h1 (Nat.le_add_right e (k * v))))
      · intro _
        trivial

/-- Helper: the chosen fuel always outlasts the elapsed-time check. -/
theorem waitFuel_ge (t v : Nat) (hv : 0 < v) : t ≤ 0 + (t / v + 1) * v := by
  have h1 := Nat.div_add_mod t v
  have h2 : t % v < v := Nat.mod_lt t hv
  calc t = v * (t / v) + t % v := h1.symm
    _ ≤ v * (t / v) + v := by omega
    _ = 0 + (t / v + 1) * v := by ring

/-- Claim C7: waitForDeployment returns normally exactly when a poll
within the timeout observes READY (with no earlier terminal
observation); it throws the deployment-state error exactly when the
first terminal observation within the timeout is ERROR or CANCELED; and
it throws the timeout error exactly when no poll within the timeout
observes a terminal state.  Poll k happens at elapsed time k times the
interval; the source defaults are timeoutMs = 300000 and intervalMs =
10000. -/
theorem c7_wait_characterization (states : Nat → String) (t v : Nat) (hv : 0 < v) :
    (waitForDeployment states t v = .ready ↔
      ∃ k, k * v < t ∧ states k = "READY" ∧
        ∀ j < k, isTerminal (states j) = false) ∧
    ((∃ m, waitForDeployment states t v = .failed m) ↔
      ∃ k, k * v < t ∧ isStop (states k) = true ∧
        ∀ j < k, isTerminal (states j) = false) ∧
    (waitForDeployment states t v = .timedOut ↔
      ∀ k, k * v < t → isTerminal (states k) = false) := by
  have hfuel := waitFuel_ge t v hv
  refine ⟨?_, ?_, ?_⟩
  · have h := waitLoop_ready_iff states t v (t / v + 1) 0 0 hfuel
    simpa [waitForDeployment] using h
  · have h := waitLoop_failed_iff states t v (t / v + 1) 0 0 hfuel
    simpa [waitForDeployment] using h
  · have h := waitLoop_timedOut_iff states t v (t / v + 1) 0 0 hfuel
    simpa [waitForDeployment] using h

/-- Concrete poll trace for the C7 witness: two pending polls, then
READY. -/
def c7States : Nat → String := fun k => if k = 2 then "READY" else "QUEUED"

/-- Witness for C7 at the source defaults. -/
theorem c7_wait_characterization_witness :
    0 < 10000 ∧ waitForDeployment c7States 300000 10000 = .ready :=
  ⟨by decide,
   (c7_wait_characterization c7States 300000 10000 (by decide)).1.mpr
     ⟨2, by decide, by decide, by decide⟩⟩

/-! ## Claim C3: dedup of concurrent duplicate deliveries -/

/-- Claim C3 counterexample: both deliveries of the same id pass the
membership check before either reaches its insert step (legal, because
the check and the insert are separated by the awaited classification
call), so both pipelines launch — the count of started pipelines is 2,
not 1. -/
theorem c3_counterexample :
    (runSched true true [false, true, false, false, true, true]).started = 2 := by
  decide

/-- Claim C3 amended: a delivery whose membership check observes the id
present skips and never starts a pipeline; a skipped delivery stays
skipped; the id is released at job termination regardless of the
outcome flag; and when the duplicate checks only after the first
delivery inserted, exactly one pipeline starts.  Exactly-once holds
only for such serialized interleavings, not for all of them. -/
theorem c3_amended (o o1 o2 keyPresent : Bool) (started : Nat) :
    (keyPresent = true →
      advance o keyPresent started .atCheck = (.skipped, keyPresent, started)) ∧
    advance o keyPresent started .skipped = (.skipped, keyPresent, started) ∧
    advance o keyPresent started .running = (.done, false, started) ∧
    runSched o1 o2 [false, false, true, false] =
      { keyPresent := false, pc1 := .done, pc2 := .skipped, started := 1 } := by
  refine ⟨?_, rfl, rfl, rfl⟩
  intro h
  rw [h]
  rfl

/-- Witness for C3 amended. -/
theorem c3_amended_witness :
    advance true true 3 .atCheck = (.skipped, true, 3) :=
  (c3_amended true true false true 3).1 rfl

/-! ## Claim C6: counter resets in the generation loop -/

/-- Claim C6: any assistant turn that the loop accepts resets the
consecutive-error counter to zero; any non-refusal assistant turn
(tool use present, or text not matching the refusal patterns) resets
the consecutive-refusal counter to zero; a provider-level result error
increments the error counter; and the fifth consecutive error aborts
the attempt.  Neither counter accumulates across non-triggering turns. -/
theorem c6_counters_reset (matchesRefusal : String → Bool) (st st1 : RCQState)
    (b : Bool) (txt : String) (o : Option String) :
    (stepMsg matchesRefusal st (.assistant b txt) = .ok st1 →
      st1.consecutiveErrors = 0) ∧
    ((b = true ∨ matchesRefusal txt = false) →
      stepMsg matchesRefusal st (.assistant b txt) =
        .ok { st with turnCount := st.turnCount + 1, consecutiveErrors := 0,
                      consecutiveRefusals := 0 }) ∧
    (st.consecutiveErrors + 1 < 5 →
      stepMsg matchesRefusal st (.resultError o) =
        .ok { st with consecutiveErrors := st.consecutiveErrors + 1,
                      lastError := some (o.getD ("unknown")) }) ∧
    (5 ≤ st.consecutiveErrors + 1 →
      stepMsg matchesRefusal st (.resultError o) =
        .error (.providerError (o.getD ("unknown")))) := by
  refine ⟨?_, ?_, ?_, ?_⟩
  · intro h
    by_cases hcond : (!b && matchesRefusal txt) = true
    · simp only [stepMsg, hcond, if_true] at h
      by_cases h3 : 3 ≤ st.consecutiveRefusals + 1
      · rw [if_pos h3] at h
        exact Except.noConfusion h
      · rw [if_neg h3] at h
        injection h with h2
        rw [← h2]
    · simp only [stepMsg, hcond, Bool.false_eq_true, if_false] at h
      injection h with h2
      rw [← h2]
  · intro hor
    have hcond : (!b && matchesRefusal txt) = false := by
      rcases hor with h | h
      · rw [h]
        rfl
      · rw [h, Bool.and_false]
    simp only [stepMsg, hcond, Bool.false_eq_true, if_false]
  · intro h5
    simp only [stepMsg, if_neg (by omega : ¬ 5 ≤ st.consecutiveErrors + 1)]
  · intro h5
    simp only [stepMsg, if_pos h5]

/-- Witness for C6 at concrete states. -/
theorem c6_counters_reset_witness :
    (⟨1, 0, 0, none, none⟩ : RCQState).consecutiveErrors = 0 ∧
    stepMsg (fun _ => false) initRCQ (.assistant true ("hi")) =
      .ok { initRCQ with turnCount := 1, consecutiveErrors := 0,
                         consecutiveRefusals := 0 } ∧
    stepMsg (fun _ => false) initRCQ (.resultError none) =
      .ok { initRCQ with consecutiveErrors := 1, lastError := some ("unknown") } ∧
    stepMsg (fun _ => false) ⟨7, 4, 0, none, none⟩ (.resultError none) =
      .error (.providerError ("unknown")) := by
  have h := c6_counters_reset (fun _ => false) initRCQ ⟨1, 0, 0, none, none⟩
    true ("hi") none
  have h4 := c6_counters_reset (fun _ => false) ⟨7, 4, 0, none, none⟩
    ⟨1, 0, 0, none, none⟩ true ("hi") none
  exact ⟨h.1 rfl, h.2.1 (Or.inl rfl), h.2.2.1 (by decide), h4.2.2.2 (by decide)⟩

/-! ## Claim C8: the hard wall-clock deadline -/

/-- Metadata of the late success for the C8 evaluation. -/
def c8Meta : RawMeta :=
  { appName := "late-app", description := "d", title := "T", fonts := [] }

/-- A message trace whose every message arrives after the 5-minute
deadline, ending in a normal success. -/
def c8Trace : List (Nat × SdkMessage) :=
  [(360000, .assistant true ("installing")),
   (420000, .assistant true ("building")),
   (480000, .resultSuccess (some c8Meta))]

/-- Claim C8: the claim says the attempt is aborted at the deadline with
a timeout error.  Evaluating the loop on a trace that arrives entirely
after the deadline shows the run completes normally and returns the
success: the AbortController armed by the timeout is never wired to the
SDK query, so nothing is aborted; the expired controller only relabels
an error thrown after the deadline. -/
theorem c8_deadline_not_enforced :
    (c8Trace.all fun tm => decide (HARD_TIMEOUT_MS ≤ tm.1)) = true ∧
    runClaudeQueryTimed (fun _ => false) c8Trace [] = .ok (c8Meta, []) := by
  exact ⟨by decide, rfl⟩

/-! ## Claim C5: three consecutive refusals abort the attempt -/

/-- Helper: the message fold splits over list append. -/
theorem runMsgs_append (matchesRefusal : String → Bool) (l1 l2 : List SdkMessage) :
    ∀ st, runMsgs matchesRefusal st (l1 ++ l2) =
      match runMsgs matchesRefusal st l1 with
      | .error e => .error e
      | .ok st1 => runMsgs matchesRefusal st1 l2 := by
  induction l1 with
  | nil =>
    intro st
    rfl
  | cons m rest ih =>
    intro st
    simp only [List.cons_append, runMsgs]
    cases stepMsg matchesRefusal st m with
    | error e => rfl
    | ok st1 => exact ih st1

/-- Claim C5: a turn is a refusal exactly when it carries no tool use
and its text matches the refusal pattern set; after a clean prefix,
three consecutive such turns make runClaudeQuery throw ContentRefused
(whatever follows in the stream), and a pipeline whose generation call
reports that error runs no deployment stage: the event trace is just
the generation attempt and the apology reply. -/
theorem c5_refusals_abort (matchesRefusal : String → Bool) (badgeScript : String)
    (env : PipelineEnv) (input : PipelineInput)
    (merge : RawMeta × List FileEntry → GeneratedApp) (diskFiles : List FileEntry)
    (pre rest : List SdkMessage) (st : RCQState) (x1 x2 x3 : String)
    (hpre : runMsgs matchesRefusal initRCQ pre = .ok st)
    (hcr : st.consecutiveRefusals = 0)
    (h1 : matchesRefusal x1 = true) (h2 : matchesRefusal x2 = true)
    (h3 : matchesRefusal x3 = true)
    (hin : input = { backend := none, template := none })
    (henv : env.generateApp =
      generationStage merge
        (runClaudeQueryModel matchesRefusal
          (pre ++ [.assistant false x1, .assistant false x2, .assistant false x3] ++ rest)
          diskFiles)) :
    runClaudeQueryModel matchesRefusal
        (pre ++ [.assistant false x1, .assistant false x2, .assistant false x3] ++ rest)
        diskFiles = .error (.contentRefused 3) ∧
    runPipeline badgeScript env input =
      ([.generateStatic, .replyApology],
       .error (queryErrorMessage (.contentRefused 3))) := by
  have hrun : runMsgs matchesRefusal initRCQ
      (pre ++ [.assistant false x1, .assistant false x2, .assistant false x3] ++ rest) =
      .error (.contentRefused 3) := by
    rw [runMsgs_append, runMsgs_append, hpre]
    simp [runMsgs, stepMsg, h1, h2, h3, hcr]
  have hq : runClaudeQueryModel matchesRefusal
      (pre ++ [.assistant false x1, .assistant false x2, .assistant false x3] ++ rest)
      diskFiles = .error (.contentRefused 3) := by
    unfold runClaudeQueryModel
    rw [hrun]
  refine ⟨hq, ?_⟩
  rw [hq] at henv
  subst hin
  simp [runPipeline, genPhase, afterBackendPhase, henv, generationStage]

/-- Refusal predicate for the C5 witness. -/
def c5Mr : String → Bool := fun s => s == "I will not build this"

/-- The three-refusal message trace for the C5 witness. -/
def c5Msgs : List SdkMessage :=
  [.assistant false ("I will not build this"),
   .assistant false ("I will not build this"),
   .assistant false ("I will not build this")]

/-- Merge function for the C5 witness. -/
def c5Merge : RawMeta × List FileEntry → GeneratedApp :=
  fun r => { appName := r.1.appName, description := r.1.description, files := r.2 }

/-- Environment for the C5 witness whose generation call is the model
run on the refusal trace. -/
def c5Env : PipelineEnv :=
  { createConvexProject := .err ("unused"), generateConvexApp := .err ("unused"),
    configureConvexAuthKeys := .err ("unused"), deployConvexBackend := .err ("unused"),
    generateThreeJsApp := .err ("unused"),
    generateApp := generationStage c5Merge (runClaudeQueryModel c5Mr c5Msgs []),
    deployToVercel := .err ("unused"), createGitHubRepo := .err ("unused"),
    waitForDeployment := .err ("unused"), takeScreenshot := .err ("unused"),
    publishToClonkSite := .err ("unused"), reply := .err ("unused") }

/-- Witness for C5 at a concrete refusal trace. -/
theorem c5_refusals_abort_witness :
    runClaudeQueryModel c5Mr c5Msgs [] = .error (.contentRefused 3) ∧
    runPipeline ("") c5Env { backend := none, template := none } =
      ([.generateStatic, .replyApology],
       .error (queryErrorMessage (.contentRefused 3))) :=
  c5_refusals_abort c5Mr ("") c5Env { backend := none, template := none }
    c5Merge [] [] [] initRCQ ("I will not build this") ("I will not build this")
    ("I will not build this") rfl rfl (by decide) (by decide) (by decide) rfl rfl

/-! ## Claim C2: source publish failures and the success reply -/

/-- Helper: the generation fallback phases emit no success reply. -/
theorem afterBackendPhase_no_reply (env : PipelineEnv) (input : PipelineInput)
    (genApp : Option GeneratedApp) (backend : Option Backend) :
    ((afterBackendPhase env input genApp backend).1.all
      fun e => !(isReplySuccessEvent e)) = true := by
  unfold afterBackendPhase
  rcases genApp with - | app
  · by_cases ht : input.template = some .threejs
    · simp only [if_pos ht]
      cases henv : env.generateThreeJsApp <;> rfl
    · simp only [if_neg ht]
      by_cases hbk : backend = none
      · simp only [if_pos hbk]
        cases henv : env.generateApp <;> rfl
      · simp only [if_neg hbk]
        rfl
  · rfl

/-- Helper: the generation phases emit no success reply. -/
theorem genPhase_no_reply (env : PipelineEnv) (input : PipelineInput) :
    ((genPhase env input).1.all fun e => !(isReplySuccessEvent e)) = true := by
  unfold genPhase
  by_cases hb : input.backend = some .convex
  · simp only [if_pos hb]
    cases hcc : env.createConvexProject with
    | err m =>
      by_cases hq : isQuotaMsg m = true
      · simp only [hq, if_pos rfl, List.all_cons]
        exact afterBackendPhase_no_reply env input none none
      · have hq2 : isQuotaMsg m = false := by simpa using hq
        simp only [hq2, Bool.false_eq_true, if_false]
        rfl
    | ok u =>
      cases hgc : env.generateConvexApp with
      | err m =>
        by_cases hq : isQuotaMsg m = true
        · simp only [hq, if_pos rfl, List.all_cons]
          exact afterBackendPhase_no_reply env input none none
        · have hq2 : isQuotaMsg m = false := by simpa using hq
          simp only [hq2, Bool.false_eq_true, if_false]
          rfl
      | ok app =>
        cases hck : env.configureConvexAuthKeys with
        | err m =>
          by_cases hq : isQuotaMsg m = true
          · simp only [hq, if_pos rfl, List.all_cons]
            exact afterBackendPhase_no_reply env input (some app) none
          · have hq2 : isQuotaMsg m = false := by simpa using hq
            simp only [hq2, Bool.false_eq_true, if_false]
            rfl
        | ok u2 =>
          cases hdb : env.deployConvexBackend with
          | err m =>
            by_cases hq : isQuotaMsg m = true
            · simp only [hq, if_pos rfl, List.all_cons]
              exact afterBackendPhase_no_reply env input (some app) none
            · have hq2 : isQuotaMsg m = false := by simpa using hq
              simp only [hq2, Bool.false_eq_true, if_false]
              rfl
          | ok u3 => rfl
  · simp only [if_neg hb]
    exact afterBackendPhase_no_reply env input none input.backend

/-- Generated app for the C2 counterexample. -/
def c2App : GeneratedApp :=
  { appName := "demo", description := "d",
    files := [{ path := "index.html", content := "<body>hi</body>" }] }

/-- Environment for the C2 counterexample: generation, hosting deploy
and readiness wait succeed, the GitHub repository creation fails. -/
def c2Env : PipelineEnv :=
  { createConvexProject := .err ("unused"), generateConvexApp := .err ("unused"),
    configureConvexAuthKeys := .err ("unused"), deployConvexBackend := .err ("unused"),
    generateThreeJsApp := .err ("unused"), generateApp := .ok c2App,
    deployToVercel := .ok ("https://demo-abc.vercel.app", "dpl_1"),
    createGitHubRepo := .err ("500 - api.github.com"),
    waitForDeployment := .ok (), takeScreenshot := .ok (),
    publishToClonkSite := .ok none, reply := .ok () }

/-- Claim C2 counterexample: with generation and the hosting deploy
succeeding, a failure of the source-repository creation makes the whole
job fail — no success reply (and hence no reply with the hosting URL)
is ever sent, only the apology.  The claim says such a failure never
prevents the successful reply. -/
theorem c2_counterexample :
    ((runPipeline ("<script>badge</script>") c2Env
        { backend := none, template := none }).1.all
      fun e => !(isReplySuccessEvent e)) = true ∧
    (runPipeline ("<script>badge</script>") c2Env
        { backend := none, template := none }).2 =
      .error ("500 - api.github.com") := by
  exact ⟨rfl, rfl⟩

/-- Claim C2 amended: within Source Publish only the per-file uploads
are non-fatal — the repository URL is returned whatever the upload
outcomes — while a failure of the repository creation propagates and is
fatal to the job: the run ends in the error with no success reply.
When repository creation (and the other fatal stages) succeed, the
success reply is sent and contains the hosting URL. -/
theorem c2_amended (badgeScript : String) (env : PipelineEnv) (input : PipelineInput)
    (gev : List StageEvent) (app : GeneratedApp) (bk : Option Backend)
    (url m : String) (uploads : List (String × Option String))
    (vercelUrl deploymentId githubUrl : String) :
    (createGitHubRepoModel (.ok url) uploads).1 = .ok url ∧
    (createGitHubRepoModel (.err m) uploads).1 = .err m ∧
    (genPhase env input = (gev, .ok (app, bk)) →
      env.deployToVercel = .ok (vercelUrl, deploymentId) →
      env.createGitHubRepo = .err m →
      (runPipeline badgeScript env input).2 = .error m ∧
      ((runPipeline badgeScript env input).1.all
        fun e => !(isReplySuccessEvent e)) = true) ∧
    (genPhase env input = (gev, .ok (app, bk)) →
      env.deployToVercel = .ok (vercelUrl, deploymentId) →
      env.createGitHubRepo = .ok githubUrl →
      env.waitForDeployment = .ok () →
      env.reply = .ok () →
      (runPipeline badgeScript env input).1 =
        gev ++ [.deployVercel (injectVibedBadge badgeScript app.files),
          .createGithubRepo, .waitDeploy, .screenshot, .clonkPublish,
          .replySuccess (mkReplyText vercelUrl bk (clonkOf env.publishToClonkSite)
            githubUrl)] ∧
      hasSubstrS (mkReplyText vercelUrl bk (clonkOf env.publishToClonkSite) githubUrl)
        vercelUrl = true) := by
  refine ⟨rfl, rfl, ?_, ?_⟩
  · intro hgen hdv hgh
    have hall := genPhase_no_reply env input
    rw [hgen] at hall
    have hrp : runPipeline badgeScript env input =
        (gev ++ [.deployVercel (injectVibedBadge badgeScript app.files),
          .createGithubRepo, .waitDeploy] ++ [.replyApology], .error m) := by
      simp [runPipeline, hgen, deployPhase, hdv, hgh]
    rw [hrp]
    refine ⟨rfl, ?_⟩
    simp only [List.all_append, hall, Bool.true_and]
    rfl
  · intro hgen hdv hgh hwait hreply
    have hrp : runPipeline badgeScript env input =
        (gev ++ [.deployVercel (injectVibedBadge badgeScript app.files),
          .createGithubRepo, .waitDeploy, .screenshot, .clonkPublish,
          .replySuccess (mkReplyText vercelUrl bk (clonkOf env.publishToClonkSite)
            githubUrl)], .ok ()) := by
      simp [runPipeline, hgen, deployPhase, hdv, hgh, hwait, hreply]
    refine ⟨by rw [hrp], ?_⟩
    by_cases hbk : bk = some .convex
    · simp only [mkReplyText, if_pos hbk, hasSubstrS, String.data_append,
        List.append_assoc]
      exact hasSubstr_of_parts _ _ _
    · simp only [mkReplyText, if_neg hbk, hasSubstrS, String.data_append,
        List.append_assoc]
      exact hasSubstr_of_parts _ _ _

/-- Environment for the C2 amended witness: everything fatal succeeds,
one file upload fails. -/
def c2OkEnv : PipelineEnv :=
  { createConvexProject := .err ("unused"), generateConvexApp := .err ("unused"),
    configureConvexAuthKeys := .err ("unused"), deployConvexBackend := .err ("unused"),
    generateThreeJsApp := .err ("unused"), generateApp := .ok c2App,
    deployToVercel := .ok ("https://demo-abc.vercel.app", "dpl_1"),
    createGitHubRepo :=
      (createGitHubRepoModel (.ok ("https://github.com/bot/demo-abc"))
        [("index.html", some ("422"))]).1,
    waitForDeployment := .ok (), takeScreenshot := .ok (),
    publishToClonkSite := .ok none, reply := .ok () }

/-- Witness for C2 amended. -/
theorem c2_amended_witness :
    (createGitHubRepoModel (.ok ("https://github.com/bot/demo-abc"))
      [("index.html", some ("422"))]).1 = .ok ("https://github.com/bot/demo-abc") ∧
    hasSubstrS
      (mkReplyText ("https://demo-abc.vercel.app") none
        (clonkOf c2OkEnv.publishToClonkSite) ("https://github.com/bot/demo-abc"))
      ("https://demo-abc.vercel.app") = true := by
  have h := c2_amended ("") c2OkEnv { backend := none, template := none }
    [.generateStatic] c2App none ("https://github.com/bot/demo-abc") ("m")
    [("index.html", some ("422"))] ("https://demo-abc.vercel.app") ("dpl_1")
    ("https://github.com/bot/demo-abc")
  exact ⟨h.1, (h.2.2.2 rfl rfl rfl rfl rfl).2⟩

/-! ## Claim C4: bounded quota downgrade -/

/-- Helper: the deployment phases emit no generation event. -/
theorem deployPhase_no_gen (badgeScript : String) (env : PipelineEnv)
    (backend : Option Backend) (app : GeneratedApp) :
    ((deployPhase badgeScript env backend app).1).filter isGenerationEvent = [] := by
  unfold deployPhase
  cases hdv : env.deployToVercel with
  | err m => rfl
  | ok p =>
    rcases p with ⟨vercelUrl, deploymentId⟩
    cases hgh : env.createGitHubRepo with
    | err m => rfl
    | ok githubUrl =>
      cases hwait : env.waitForDeployment with
      | err m => rfl
      | ok u =>
        cases hreply : env.reply with
        | err m => rfl
        | ok u2 => rfl

/-- Claim C4: with the backend variant requested, a quota-matching
failure of the Convex project creation drops the backend and runs
generation exactly once more, against the non-backend variant selected
by the template hint — the full event trace contains exactly that one
generation event, never a second downgrade; any non-quota failure of
that stage is fatal: no generation at all, only the apology reply, and
the job ends in the error. -/
theorem c4_quota_single_downgrade (badgeScript : String) (env : PipelineEnv)
    (input : PipelineInput) (m : String)
    (hb : input.backend = some .convex)
    (hcc : env.createConvexProject = .err m) :
    (isQuotaMsg m = true →
      (runPipeline badgeScript env input).1.filter isGenerationEvent =
        [if input.template = some .threejs then .generateThreeJs
         else .generateStatic]) ∧
    (isQuotaMsg m = false →
      (runPipeline badgeScript env input).1 = [.createConvexProject, .replyApology] ∧
      (runPipeline badgeScript env input).2 = .error m) := by
  constructor
  · intro hq
    have hgen : genPhase env input =
        (.createConvexProject :: (afterBackendPhase env input none none).1,
         (afterBackendPhase env input none none).2) := by
      simp [genPhase, hb, hcc, hq]
    by_cases ht : input.template = some .threejs
    · rw [if_pos ht]
      cases hga : env.generateThreeJsApp with
      | err m2 =>
        have hab : afterBackendPhase env input none none =
            ([.generateThreeJs], .error m2) := by
          simp [afterBackendPhase, ht, hga]
        simp [runPipeline, hgen, hab, isGenerationEvent]
      | ok app =>
        have hab : afterBackendPhase env input none none =
            ([.generateThreeJs], .ok (app, none)) := by
          simp [afterBackendPhase, ht, hga]
        have hdep := deployPhase_no_gen badgeScript env none app
        rcases hdv : deployPhase badgeScript env none app with ⟨dev, dres⟩
        rw [hdv] at hdep
        cases dres with
        | error m3 =>
          simp [runPipeline, hgen, hab, hdv, List.filter_append, hdep,
            isGenerationEvent]
        | ok u =>
          simp [runPipeline, hgen, hab, hdv, List.filter_append, hdep,
            isGenerationEvent]
    · rw [if_neg ht]
      cases hga : env.generateApp with
      | err m2 =>
        have hab : afterBackendPhase env input none none =
            ([.generateStatic], .error m2) := by
          simp [afterBackendPhase, ht, hga]
        simp [runPipeline, hgen, hab, isGenerationEvent]
      | ok app =>
        have hab : afterBackendPhase env input none none =
            ([.generateStatic], .ok (app, none)) := by
          simp [afterBackendPhase, ht, hga]
        have hdep := deployPhase_no_gen badgeScript env none app
        rcases hdv : deployPhase badgeScript env none app with ⟨dev, dres⟩
        rw [hdv] at hdep
        cases dres with
        | error m3 =>
          simp [runPipeline, hgen, hab, hdv, List.filter_append, hdep,
            isGenerationEvent]
        | ok u =>
          simp [runPipeline, hgen, hab, hdv, List.filter_append, hdep,
            isGenerationEvent]
  · intro hq
    have hgen : genPhase env input = ([.createConvexProject], .error m) := by
      simp [genPhase, hb, hcc, hq]
    constructor
    · simp [runPipeline, hgen]
    · simp [runPipeline, hgen]

/-- Environment for the C4 witness quota branch. -/
def c4QuotaEnv : PipelineEnv :=
  { createConvexProject := .err ("ProjectQuotaReached: too many projects"),
    generateConvexApp := .err ("unused"),
    configureConvexAuthKeys := .err ("unused"), deployConvexBackend := .err ("unused"),
    generateThreeJsApp := .err ("unused"), generateApp := .ok c2App,
    deployToVercel := .ok ("https://demo-abc.vercel.app", "dpl_1"),
    createGitHubRepo := .ok ("https://github.com/bot/demo-abc"),
    waitForDeployment := .ok (), takeScreenshot := .ok (),
    publishToClonkSite := .ok none, reply := .ok () }

/-- Environment for the C4 witness fatal branch. -/
def c4FatalEnv : PipelineEnv :=
  { c4QuotaEnv with createConvexProject := .err ("deploy key rejected") }

/-- Witness for C4 on both branches. -/
theorem c4_quota_single_downgrade_witness :
    (runPipeline ("") c4QuotaEnv
        { backend := some .convex, template := none }).1.filter isGenerationEvent =
      [.generateStatic] ∧
    (runPipeline ("") c4FatalEnv
        { backend := some .convex, template := none }).1 =
      [.createConvexProject, .replyApology] := by
  have h1 := c4_quota_single_downgrade ("") c4QuotaEnv
    { backend := some .convex, template := none }
    ("ProjectQuotaReached: too many projects") rfl rfl
  have h2 := c4_quota_single_downgrade ("") c4FatalEnv
    { backend := some .convex, template := none } ("deploy key rejected") rfl rfl
  exact ⟨by simpa using h1.1 (by decide), (h2.2 (by decide)).1⟩

end Clonk
